import Mathlib

/-!
Verification of the ataraxia service layer specification against the visible
source fragment.

The authoritative source under verification is
`src/packages/services/src/reflect/ServiceReflect.ts` (the abstract
`ServiceReflect` class) together with the reference test
`src/unnamed/part_000` (remote-call scenario).  Components that the
specification describes but whose source is not part of the visible fragment
(Local/Remote reflect dispatch, the Services registry wire protocol, contract
building and proxy generation, pending-call correlation) are modelled from the
specification's words; each such definition carries a doc comment starting
with `Modelled from the spec:`.

JavaScript `Map` objects are embedded as insertion-ordered association lists
(`JsMap`), matching the ECMAScript guarantee that `Map` iteration follows
insertion order and that `set` on an existing key updates in place.
-/

set_option autoImplicit false

namespace Ataraxia

/-- A wire-level value, standing in for TypeScript `any` in arguments and
results of service calls. -/
inductive Value where
  | str : String → Value
  | num : Int → Value
  | bool : Bool → Value
  | null : Value
deriving DecidableEq, Repr

/-- A data type tag as used by service contracts (`stringType` etc. from
`ataraxia-service-contracts`); only its identity matters here. -/
structure DataType where
  id : String
deriving DecidableEq, Repr

/-- The `stringType` tag used by the reference test's contract. -/
def stringType : DataType := ⟨"string"⟩

/-- One named, typed parameter of a service method, as described by
`describeMethod` in the reference test (`name` plus `type`). -/
structure MethodParameter where
  name : String
  type : DataType
deriving DecidableEq, Repr

/-- Descriptor of one service method: name, ordered parameters and return
type (spec section 3, `MethodDescriptor`). -/
structure ServiceMethod where
  name : String
  parameters : List MethodParameter
  returnType : DataType
deriving DecidableEq, Repr

/-- Descriptor of one service event: name and ordered payload parameters
(spec section 3, `EventDescriptor`). -/
structure ServiceEvent where
  name : String
  parameters : List MethodParameter
deriving DecidableEq, Repr

/-- Embedding of a JavaScript `Map` with string keys: an association list in
insertion order.  ECMAScript guarantees `Map` iteration order is insertion
order, and `set` on a present key updates the value in place. -/
abbrev JsMap (α : Type) : Type := List (String × α)

namespace JsMap

/-- The empty map, `new Map()`. -/
def empty {α : Type} : JsMap α := []

/-- JavaScript `map.get(k)`: the value stored under `k`, or `undefined`
(here `none`) when absent. -/
def get {α : Type} (m : JsMap α) (k : String) : Option α :=
  (List.find? (fun p => p.1 == k) m).map Prod.snd

/-- JavaScript `map.has(k)`. -/
def has {α : Type} (m : JsMap α) (k : String) : Bool :=
  List.any m (fun p => p.1 == k)

/-- JavaScript `[...map.values()]` order: the values in insertion order. -/
def values {α : Type} (m : JsMap α) : List α :=
  List.map Prod.snd m

/-- The keys of the map, in insertion order. -/
def keys {α : Type} (m : JsMap α) : List String :=
  List.map Prod.fst m

/-- JavaScript `map.set(k, v)`: update in place when `k` is present (keeping
its position), append otherwise. -/
def set {α : Type} (m : JsMap α) (k : String) (v : α) : JsMap α :=
  if m.has k then
    List.map (fun p => if p.1 == k then (k, v) else p) m
  else
    m ++ [(k, v)]

/-- A well-formed `Map` never holds two entries with the same key (JavaScript
`Map.set` overwrites instead of duplicating). -/
abbrev WF {α : Type} (m : JsMap α) : Prop :=
  m.keys.Nodup

end JsMap

/-- Embedding of the abstract class `ServiceReflect`
(`src/packages/services/src/reflect/ServiceReflect.ts`, lines 10–27): an `id`,
the two descriptor maps captured at construction, and the abstract `apply`
member as a function field (each concrete variant supplies its own).  The
result type `ρ` abstracts `Promise<any>`. -/
structure ServiceReflect (ρ : Type) where
  id : String
  _methods : JsMap ServiceMethod
  _events : JsMap ServiceEvent
  applyImpl : String → List Value → ρ

namespace ServiceReflect

variable {ρ : Type}

/-- `ServiceReflect.apply` (abstract in the source, line 40): dispatches to
the concrete variant's implementation. -/
def apply (r : ServiceReflect ρ) (method : String) (args : List Value) : ρ :=
  r.applyImpl method args

/-- `ServiceReflect.call` (source lines 53–55):
`return this.apply(method, args)` where `args` collects the rest
parameters. -/
def call (r : ServiceReflect ρ) (method : String) (args : List Value) : ρ :=
  r.apply method args

/-- `ServiceReflect.getMethod` (source lines 65–67):
`this._methods.get(name) || null`.  Descriptors are objects, hence truthy, so
`|| null` only converts `undefined` (an absent key) to `null`; `none` models
`null`. -/
def getMethod (r : ServiceReflect ρ) (name : String) : Option ServiceMethod :=
  r._methods.get name

/-- `ServiceReflect.hasMethod` (source lines 77–79):
`this._methods.has(name)`. -/
def hasMethod (r : ServiceReflect ρ) (name : String) : Bool :=
  r._methods.has name

/-- The `methods` getter (source lines 87–89): `[ ...this._methods.values() ]`
— a fresh array of the values in the map's insertion order. -/
def methods (r : ServiceReflect ρ) : List ServiceMethod :=
  r._methods.values

/-- `ServiceReflect.getEvent` (source lines 123–125):
`this._events.get(name) || null`. -/
def getEvent (r : ServiceReflect ρ) (name : String) : Option ServiceEvent :=
  r._events.get name

/-- `ServiceReflect.hasEvent` (source lines 135–137):
`this._events.has(name)`. -/
def hasEvent (r : ServiceReflect ρ) (name : String) : Bool :=
  r._events.has name

/-- The `events` getter (source lines 145–147):
`[ ...this._events.values() ]`. -/
def events (r : ServiceReflect ρ) : List ServiceEvent :=
  r._events.values

end ServiceReflect

/-- Errors of the invocation error taxonomy (spec section 7) that can reach a
caller's promise, plus `thrown`, a raw value thrown by a local
implementation and propagated unchanged on the local path. -/
inductive InvokeError where
  | unknownMethod : String → InvokeError
  | unknownEvent : String → InvokeError
  | remoteInvocationError : String → InvokeError
  | thrown : String → InvokeError
deriving DecidableEq, Repr

/-- The eventual settlement of a `Promise<any>` returned by `apply`/`call`:
resolved with a value or rejected with an error. -/
inductive Outcome where
  | resolved : Value → Outcome
  | rejected : InvokeError → Outcome
deriving DecidableEq, Repr

/-- A service implementation object: each method either returns a value or
throws an error carrying a message. -/
def Impl : Type := String → List Value → Except String Value

/-- Modelled from the spec: `LocalServiceReflect.apply` is not in the visible
fragment.  Spec section 4.2: `apply` fails with UnknownMethod if the method is
not in the descriptor map; otherwise the Local variant invokes the bound
implementation's method and an implementation that throws causes the promise
to reject with the thrown value, locally propagated unchanged. -/
def localApply (methods : JsMap ServiceMethod) (impl : Impl)
    (method : String) (args : List Value) : Outcome :=
  if methods.has method then
    match impl method args with
    | .ok v => .resolved v
    | .error msg => .rejected (.thrown msg)
  else
    .rejected (.unknownMethod method)

/-- Listeners are identified abstractly; an event-subscription table holds
(event name, listener) pairs (spec section 3, `EventSubscription`). -/
abbrev Listeners : Type := List (String × Nat)

/-- Modelled from the spec: `LocalServiceReflect.subscribe` is not in the
visible fragment.  Spec sections 4.2: fails with UnknownEvent if the event is
undeclared; otherwise attaches the listener to the per-event emitter and
resolves with no network involvement. -/
def localSubscribe (events : JsMap ServiceEvent) (ls : Listeners)
    (event : String) (listener : Nat) : Except InvokeError Listeners :=
  if events.has event then
    .ok (ls ++ [(event, listener)])
  else
    .error (.unknownEvent event)

/-- Modelled from the spec: `LocalServiceReflect.unsubscribe` is not in the
visible fragment.  Fails with UnknownEvent if the event is undeclared;
otherwise detaches the listener and resolves with whether it was
registered. -/
def localUnsubscribe (events : JsMap ServiceEvent) (ls : Listeners)
    (event : String) (listener : Nat) : Except InvokeError (Listeners × Bool) :=
  if events.has event then
    .ok (List.filter (fun p => !(p == (event, listener))) ls,
      List.any ls (fun p => p == (event, listener)))
  else
    .error (.unknownEvent event)

/-- A `call-request` wire message (spec section 6):
`serviceId, method, args, correlationId`. -/
structure CallRequest where
  serviceId : String
  method : String
  args : List Value
  correlationId : Nat
deriving DecidableEq, Repr

deriving instance DecidableEq for Except

/-- A `call-response` wire message (spec section 6): the correlation id plus
either a success value or an error message. -/
structure CallResponse where
  correlationId : Nat
  result : Except String Value
deriving DecidableEq, Repr

/-- Control messages a Remote reflect may put on the wire for event
subscription management (spec section 6). -/
inductive ControlMsg where
  | eventSubscribe : String → String → ControlMsg
  | eventUnsubscribe : String → String → ControlMsg
deriving DecidableEq, Repr

/-- Per-caller pending-call bookkeeping (spec sections 3 and 5): a monotonic
correlation-id counter and the set of outstanding ids. -/
structure PendingCalls where
  nextId : Nat
  outstanding : List Nat
deriving DecidableEq, Repr

/-- Modelled from the spec: correlation-id allocation for a remote call is not
in the visible fragment.  Spec section 5: correlation ids must not collide; a
monotonic counter satisfies this.  Registers a PendingCall and returns its
fresh id. -/
def registerCall (st : PendingCalls) : Nat × PendingCalls :=
  (st.nextId, ⟨st.nextId + 1, st.outstanding ++ [st.nextId]⟩)

/-- Modelled from the spec: `RemoteServiceReflect.apply`'s send half is not in
the visible fragment.  Spec sections 4.2 and 7: fails with UnknownMethod
immediately — never sent over the wire — if the method is not in the
descriptor map; otherwise registers a PendingCall under a fresh correlation
id and produces the `call-request` to unicast to the owning node. -/
def remoteSend (methods : JsMap ServiceMethod) (serviceId : String)
    (st : PendingCalls) (method : String) (args : List Value) :
    Except InvokeError (CallRequest × PendingCalls) :=
  if methods.has method then
    let (cid, st1) := registerCall st
    .ok (⟨serviceId, method, args, cid⟩, st1)
  else
    .error (.unknownMethod method)

/-- Modelled from the spec: the registry's inbound `call-request` handling is
not in the visible fragment.  Spec section 4.3: look up the Local reflect for
the named service, `apply` the method, and reply with a `call-response`
(success or error) correlated by id; the error payload carries the remote
error's message. -/
def handleCallRequest (methods : JsMap ServiceMethod) (impl : Impl)
    (req : CallRequest) : CallResponse :=
  match localApply methods impl req.method req.args with
  | .resolved v => ⟨req.correlationId, .ok v⟩
  | .rejected (.thrown msg) => ⟨req.correlationId, .error msg⟩
  | .rejected (.unknownMethod m) => ⟨req.correlationId, .error m⟩
  | .rejected (.unknownEvent e) => ⟨req.correlationId, .error e⟩
  | .rejected (.remoteInvocationError msg) => ⟨req.correlationId, .error msg⟩

/-- Modelled from the spec: the completion half of `RemoteServiceReflect.apply`
is not in the visible fragment.  Spec section 4.2: a success payload resolves
the pending promise, an error payload rejects it with a RemoteInvocationError
carrying the remote error message. -/
def completeCall (resp : CallResponse) : Outcome :=
  match resp.result with
  | .ok v => .resolved v
  | .error msg => .rejected (.remoteInvocationError msg)

/-- Modelled from the spec: the full remote round trip (send, serve, settle)
composed from `remoteSend`, `handleCallRequest` and `completeCall`, for a
deterministic implementation hosted by the owning node. -/
def remoteCall (methods : JsMap ServiceMethod) (impl : Impl)
    (serviceId : String) (st : PendingCalls) (method : String)
    (args : List Value) : Outcome :=
  match remoteSend methods serviceId st method args with
  | .error e => .rejected e
  | .ok (req, _) => completeCall (handleCallRequest methods impl req)

/-- Modelled from the spec: `RemoteServiceReflect.subscribe` is not in the
visible fragment.  Spec sections 4.2 and 7: fails with UnknownEvent
immediately — never sent over the wire — if the event is undeclared;
otherwise attaches the listener, sending an `event-subscribe` control message
only on the 0-to-1 transition for that event. -/
def remoteSubscribe (events : JsMap ServiceEvent) (serviceId : String)
    (ls : Listeners) (event : String) (listener : Nat) :
    Except InvokeError (Listeners × Option ControlMsg) :=
  if events.has event then
    let first := !(List.any ls (fun p => p.1 == event))
    .ok (ls ++ [(event, listener)],
      if first then some (.eventSubscribe serviceId event) else none)
  else
    .error (.unknownEvent event)

/-- Modelled from the spec: `RemoteServiceReflect.unsubscribe` is not in the
visible fragment.  Fails with UnknownEvent immediately — never sent over the
wire — if the event is undeclared; otherwise detaches the listener, returns
whether it was registered locally, and sends `event-unsubscribe` only on the
1-to-0 transition. -/
def remoteUnsubscribe (events : JsMap ServiceEvent) (serviceId : String)
    (ls : Listeners) (event : String) (listener : Nat) :
    Except InvokeError ((Listeners × Bool) × Option ControlMsg) :=
  if events.has event then
    let ls1 := List.filter (fun p => !(p == (event, listener))) ls
    let was := List.any ls (fun p => p == (event, listener))
    let last := !(List.any ls1 (fun p => p.1 == event))
    .ok ((ls1, was),
      if was && last then some (.eventUnsubscribe serviceId event) else none)
  else
    .error (.unknownEvent event)

/-- Modelled from the spec: the `ServiceContract` class
(`ataraxia-service-contracts`) is not in the visible fragment.  Spec
section 3: an ordered mapping name to MethodDescriptor and name to
EventDescriptor, built once via a fluent describer. -/
structure ServiceContract where
  methods : JsMap ServiceMethod
  events : JsMap ServiceEvent
deriving DecidableEq, Repr

/-- Errors raised while building a contract or binding an implementation
(spec sections 4.1 and 7). -/
inductive ContractError where
  | duplicateDescriptor : String → ContractError
  | invalidImplementation : String → ContractError
deriving DecidableEq, Repr

namespace ServiceContract

/-- A contract with no descriptors, `new ServiceContract()`. -/
def empty : ServiceContract := ⟨JsMap.empty, JsMap.empty⟩

/-- Modelled from the spec: `describeMethod` is not in the visible fragment.
Spec section 4.1: appends the descriptor; calling it twice with the same name
fails with a DuplicateDescriptor error. -/
def describeMethod (c : ServiceContract) (m : ServiceMethod) :
    Except ContractError ServiceContract :=
  if c.methods.has m.name then
    .error (.duplicateDescriptor m.name)
  else
    .ok ⟨c.methods.set m.name m, c.events⟩

/-- Modelled from the spec: `describeEvent` is not in the visible fragment.
Spec section 4.1: appends the descriptor; duplicate names fail with
DuplicateDescriptor. -/
def describeEvent (c : ServiceContract) (e : ServiceEvent) :
    Except ContractError ServiceContract :=
  if c.events.has e.name then
    .error (.duplicateDescriptor e.name)
  else
    .ok ⟨c.methods, c.events.set e.name e⟩

/-- Modelled from the spec: the structural check done at proxy-creation time
is not in the visible fragment.  Spec section 4.1: the reflect must advertise
every method and event the contract declares, by name only. -/
def satisfiedBy {ρ : Type} (c : ServiceContract) (r : ServiceReflect ρ) : Bool :=
  List.all c.methods (fun p => r.hasMethod p.1) &&
    List.all c.events (fun p => r.hasEvent p.1)

/-- Modelled from the spec: typed proxy generation (`handle.as(contract)`) is
not in the visible fragment.  Spec section 4.1: produces an object with one
method per descriptor, each forwarding its positional arguments to
`reflect.apply(name, args)`; fails with ContractMismatch when the reflect
does not advertise every declared name.  Invoking a name the contract does
not declare has no generated method (`none`). -/
def createProxy {ρ : Type} (c : ServiceContract) (r : ServiceReflect ρ) :
    Option (String → List Value → Option ρ) :=
  if c.satisfiedBy r then
    some (fun m args => if c.methods.has m then some (r.apply m args) else none)
  else
    none

end ServiceContract

/-- Modelled from the spec: the object returned by `Services.get(id)` is not
in the visible fragment.  Spec section 3: a `ServiceHandle` wraps an optional
Service Reflect; `.available` reflects whether a reflect currently exists. -/
structure ServiceHandle (ρ : Type) where
  reflect : Option (ServiceReflect ρ)

namespace ServiceHandle

variable {ρ : Type}

/-- Whether the handle currently wraps a reflect (spec section 3). -/
def available (h : ServiceHandle ρ) : Bool :=
  h.reflect.isSome

/-- Modelled from the spec: `handle.call(method, ...args)` forwards to the
wrapped reflect's `call`; only meaningful when available. -/
def call (h : ServiceHandle ρ) (method : String) (args : List Value) :
    Option ρ :=
  Option.map (fun r => r.call method args) h.reflect

/-- Modelled from the spec: `handle.as(contract)` builds the typed proxy from
the wrapped reflect; only meaningful when available. -/
def as (h : ServiceHandle ρ) (c : ServiceContract) :
    Option (String → List Value → Option ρ) :=
  Option.bind h.reflect (fun r => c.createProxy r)

end ServiceHandle

/-- Settlement of pending calls from a list of arrived `call-response`
messages, in arrival order: a pending call with correlation id `cid` settles
with the result of the first response carrying that id (spec sections 4.2
and 5; responses to distinct ids never collide). -/
def settle (resps : List CallResponse) (cid : Nat) : Option (Except String Value) :=
  (List.find? (fun resp => resp.correlationId == cid) resps).map
    (fun resp => resp.result)

/-- A heap of JavaScript arrays of `α`, addressed by allocation index.  Used
to state freshness of the arrays returned by the `methods`/`events` getters:
the spread `[ ...map.values() ]` allocates a new array on every read. -/
structure Store (α : Type) where
  arrays : List (List α)
deriving Repr

namespace Store

variable {α : Type}

/-- Allocate a new array holding `v`; returns its reference. -/
def alloc (s : Store α) (v : List α) : Nat × Store α :=
  (s.arrays.length, ⟨s.arrays ++ [v]⟩)

/-- Read the array behind a reference. -/
def read (s : Store α) (ref : Nat) : Option (List α) :=
  s.arrays[ref]?

/-- Overwrite the array behind a reference with arbitrary new contents,
modelling any in-place mutation of a returned array. -/
def write (s : Store α) (ref : Nat) (v : List α) : Store α :=
  ⟨s.arrays.set ref v⟩

end Store

/-- The `methods` getter read against an explicit array heap: source lines
87–89 build the returned array with a spread, i.e. a fresh allocation whose
contents are the descriptor map's values. -/
def methodsGetterRead {ρ : Type} (r : ServiceReflect ρ)
    (s : Store ServiceMethod) : Nat × Store ServiceMethod :=
  s.alloc r.methods

/-- The `events` getter read against an explicit array heap: source lines
145–147, same spread-allocation as `methodsGetterRead`. -/
def eventsGetterRead {ρ : Type} (r : ServiceReflect ρ)
    (s : Store ServiceEvent) : Nat × Store ServiceEvent :=
  s.alloc r.events

/-- The `hello` method descriptor of the reference test's `TestService`
contract (`src/unnamed/part_000`, lines 10–19): one string parameter named
`message`, string return type. -/
def helloMethod : ServiceMethod :=
  ⟨"hello", [⟨"message", stringType⟩], stringType⟩

/-- The `TestService` contract of the reference test: a single method
`hello`. -/
def TestService : ServiceContract :=
  ⟨[("hello", helloMethod)], JsMap.empty⟩

/-- The implementation registered on node A in the reference test
(`src/unnamed/part_000`, lines 35–39): `hello(what)` returns
`'Hello ' + what + '!'`. -/
def helloImpl : Impl := fun method args =>
  if method == "hello" then
    match args with
    | [.str what] => .ok (.str ("Hello " ++ what ++ "!"))
    | _ => .error "invalid arguments"
  else
    .error ("no such method: " ++ method)

/-- An implementation whose `hello` throws `Error('boom')` (spec section 8's
error-propagation scenario). -/
def boomImpl : Impl := fun method _ =>
  if method == "hello" then
    .error "boom"
  else
    .error ("no such method: " ++ method)

/-- Modelled from the spec: the Remote reflect node B obtains for service id
`test` once node A's advertisement has propagated, its `apply` performing the
full round trip against node A's implementation. -/
def remoteTestReflect (impl : Impl) (st : PendingCalls) : ServiceReflect Outcome :=
  ⟨"test", TestService.methods, TestService.events,
    fun method args => remoteCall TestService.methods impl "test" st method args⟩

/-- Chain of `describeMethod` calls over a list of descriptors, the shape of
a fluent `contract.describeMethod(...).describeMethod(...)` chain. -/
def ServiceContract.describeMethods :
    ServiceContract → List ServiceMethod → Except ContractError ServiceContract
  | c, [] => .ok c
  | c, d :: rest =>
    match c.describeMethod d with
    | .ok c1 => c1.describeMethods rest
    | .error e => .error e

/-- Chain of `describeEvent` calls over a list of descriptors. -/
def ServiceContract.describeEvents :
    ServiceContract → List ServiceEvent → Except ContractError ServiceContract
  | c, [] => .ok c
  | c, e :: rest =>
    match c.describeEvent e with
    | .ok c1 => c1.describeEvents rest
    | .error err => .error err

namespace JsMap

variable {α : Type}

/-- A well-formed map sends a stored key to its stored value. -/
lemma get_eq_some_of_mem {k : String} {v : α} :
    ∀ {m : JsMap α}, m.WF → (k, v) ∈ m → m.get k = some v := by
  intro m
  induction m with
  | nil => intro _ h; cases h
  | cons p rest ih =>
    intro hwf hmem
    have hwf' : p.1 ∉ List.map Prod.fst rest ∧ (List.map Prod.fst rest).Nodup := by
      simpa [WF, keys] using hwf
    rcases List.mem_cons.mp hmem with h | h
    · subst h
      simp [get, List.find?_cons_of_pos]
    · have hne : ¬ (p.1 == k) = true := by
        intro hbeq
        exact hwf'.1 ((beq_iff_eq.mp hbeq) ▸ List.mem_map_of_mem Prod.fst h)
      have htail : JsMap.get rest k = some v := ih hwf'.2 h
      have hne' : ¬ ((fun q : String × α => q.1 == k) p) = true := hne
      show (List.find? (fun q => q.1 == k) (p :: rest)).map Prod.snd = some v
      rw [List.find?_cons_of_neg rest hne']
      exact htail

/-- A key the map does not have looks up to `none`. -/
lemma get_eq_none_of_has_false {m : JsMap α} {k : String}
    (h : m.has k = false) : m.get k = none := by
  have hall : ∀ p ∈ m, ¬ (p.1 == k) = true := by
    intro p hp hbeq
    have : m.has k = true := List.any_eq_true.mpr ⟨p, hp, hbeq⟩
    simp [this] at h
  simp [get, List.find?_eq_none.mpr hall]

/-- `has` decides membership of a key in the key list. -/
lemma has_iff_mem_keys (m : JsMap α) (k : String) :
    m.has k = true ↔ k ∈ m.keys := by
  constructor
  · intro h
    obtain ⟨p, hp, hbeq⟩ := List.any_eq_true.mp h
    exact (beq_iff_eq.mp hbeq) ▸ List.mem_map_of_mem Prod.fst hp
  · intro h
    obtain ⟨p, hp, he⟩ := List.mem_map.mp h
    exact List.any_eq_true.mpr ⟨p, hp, by simp [he]⟩

/-- `get` succeeds exactly when `has` holds. -/
lemma isSome_get_eq_has (m : JsMap α) (k : String) :
    (m.get k).isSome = m.has k := by
  cases hf : List.find? (fun q => q.1 == k) m with
  | none =>
    have hnone := List.find?_eq_none.mp hf
    have hany : m.has k = false := by
      rw [has, ← Bool.not_eq_true, List.any_eq_true]
      rintro ⟨p, hp, hbeq⟩
      exact hnone p hp hbeq
    simp [get, hf, hany]
  | some p =>
    have hmem : p ∈ m := List.mem_of_find?_eq_some hf
    have hbeq := List.find?_some hf
    have hany : m.has k = true := List.any_eq_true.mpr ⟨p, hmem, hbeq⟩
    simp [get, hf, hany]

/-- Setting a fresh key appends the binding at the end. -/
lemma set_of_has_false {m : JsMap α} {k : String} (v : α)
    (h : m.has k = false) : m.set k v = m ++ [(k, v)] := by
  simp [set, h]

/-- Values of an append. -/
lemma values_append (m₁ m₂ : JsMap α) :
    (m₁ ++ m₂).values = m₁.values ++ m₂.values := by
  simp [values]

end JsMap

/-- A successful `describeMethod` chain appends the declared descriptors, in
declaration order, to the values of the method map, and leaves events
untouched. -/
lemma describeMethods_values :
    ∀ (ds : List ServiceMethod) (c c' : ServiceContract),
      c.describeMethods ds = .ok c' →
      c'.methods.values = c.methods.values ++ ds ∧ c'.events = c.events := by
  intro ds
  induction ds with
  | nil =>
    intro c c' h
    cases h
    simp
  | cons d rest ih =>
    intro c c' h
    by_cases hh : c.methods.has d.name
    · simp [ServiceContract.describeMethods, ServiceContract.describeMethod, hh] at h
    · have hd : c.describeMethod d = .ok ⟨c.methods.set d.name d, c.events⟩ := by
        simp [ServiceContract.describeMethod, hh]
      have h1 : ServiceContract.describeMethods ⟨c.methods.set d.name d, c.events⟩ rest
          = .ok c' := by
        simpa [ServiceContract.describeMethods, hd] using h
      obtain ⟨hv, he⟩ := ih _ c' h1
      have hset : c.methods.set d.name d = c.methods ++ [(d.name, d)] :=
        JsMap.set_of_has_false d (by simpa using hh)
      constructor
      · rw [hv]
        simp [hset, JsMap.values_append, JsMap.values]
      · exact he

/-- A successful `describeEvent` chain appends the declared descriptors, in
declaration order, to the values of the event map, and leaves methods
untouched. -/
lemma describeEvents_values :
    ∀ (es : List ServiceEvent) (c c' : ServiceContract),
      c.describeEvents es = .ok c' →
      c'.events.values = c.events.values ++ es ∧ c'.methods = c.methods := by
  intro es
  induction es with
  | nil =>
    intro c c' h
    cases h
    simp
  | cons e rest ih =>
    intro c c' h
    by_cases hh : c.events.has e.name
    · simp [ServiceContract.describeEvents, ServiceContract.describeEvent, hh] at h
    · have hd : c.describeEvent e = .ok ⟨c.methods, c.events.set e.name e⟩ := by
        simp [ServiceContract.describeEvent, hh]
      have h1 : ServiceContract.describeEvents ⟨c.methods, c.events.set e.name e⟩ rest
          = .ok c' := by
        simpa [ServiceContract.describeEvents, hd] using h
      obtain ⟨hv, hm⟩ := ih _ c' h1
      have hset : c.events.set e.name e = c.events ++ [(e.name, e)] :=
        JsMap.set_of_has_false e (by simpa using hh)
      constructor
      · rw [hv]
        simp [hset, JsMap.values_append, JsMap.values]
      · exact hm

/-- With pairwise-distinct correlation ids, the response found for a given id
is exactly the response carrying that id. -/
lemma find_resp_of_mem_nodup :
    ∀ {resps : List CallResponse},
      (List.map CallResponse.correlationId resps).Nodup →
      ∀ {resp : CallResponse}, resp ∈ resps →
      List.find? (fun x => x.correlationId == resp.correlationId) resps = some resp := by
  intro resps
  induction resps with
  | nil => intro _ resp h; cases h
  | cons a rest ih =>
    intro hnd resp hmem
    have hnd' : a.correlationId ∉ List.map CallResponse.correlationId rest ∧
        (List.map CallResponse.correlationId rest).Nodup := by
      simpa using hnd
    rcases List.mem_cons.mp hmem with h | h
    · subst h
      exact List.find?_cons_of_pos rest (by simp)
    · have hne : ¬ ((fun x : CallResponse => x.correlationId == resp.correlationId) a) = true := by
        simp only [beq_iff_eq]
        intro heq
        exact hnd'.1 (heq ▸ List.mem_map_of_mem CallResponse.correlationId h)
      rw [List.find?_cons_of_neg rest hne]
      exact ih hnd'.2 h

/-- C1: for every ServiceReflect `r`, method name `method` and argument list
`args` (the empty list included), `r.call method args` is the same
promise-producing computation as `r.apply method args` — `call` is exactly
the convenience wrapper `return this.apply(method, args)` of source lines
53–55. -/
theorem call_equals_apply {ρ : Type} (r : ServiceReflect ρ) (method : String)
    (args : List Value) : r.call method args = r.apply method args := rfl

/-- C4: for every descriptor map and every name absent from it, `apply`
(local variant, and the remote send half) fails with UnknownMethod, and
`subscribe`/`unsubscribe` (both variants) fail with UnknownEvent; each failure
is the immediately returned error value, and since the remote operations
yield their wire message only inside the success branch, nothing is sent over
the wire. -/
theorem unknown_names_rejected_without_wire
    (methods : JsMap ServiceMethod) (events : JsMap ServiceEvent) (impl : Impl)
    (ls : Listeners) (st : PendingCalls) (sid m e : String) (args : List Value)
    (listener : Nat) (hm : methods.has m = false) (he : events.has e = false) :
    localApply methods impl m args = .rejected (.unknownMethod m) ∧
    remoteSend methods sid st m args = .error (.unknownMethod m) ∧
    remoteCall methods impl sid st m args = .rejected (.unknownMethod m) ∧
    localSubscribe events ls e listener = .error (.unknownEvent e) ∧
    localUnsubscribe events ls e listener = .error (.unknownEvent e) ∧
    remoteSubscribe events sid ls e listener = .error (.unknownEvent e) ∧
    remoteUnsubscribe events sid ls e listener = .error (.unknownEvent e) := by
  refine ⟨?_, ?_, ?_, ?_, ?_, ?_, ?_⟩ <;>
    simp [localApply, remoteSend, remoteCall, localSubscribe, localUnsubscribe,
      remoteSubscribe, remoteUnsubscribe, hm, he]

/-- Closed instance of C4's theorem: the name `nope` is not declared by the
reference test's contract, so every operation rejects it immediately. -/
theorem unknown_names_rejected_without_wire_witness :
    TestService.methods.has "nope" = false ∧
    TestService.events.has "nope" = false ∧
    localApply TestService.methods helloImpl "nope" [] =
      .rejected (.unknownMethod "nope") ∧
    remoteSend TestService.methods "test" ⟨0, []⟩ "nope" [] =
      .error (.unknownMethod "nope") ∧
    remoteSubscribe TestService.events "test" [] "nope" 0 =
      .error (.unknownEvent "nope") := by
  have h := unknown_names_rejected_without_wire TestService.methods
    TestService.events helloImpl [] ⟨0, []⟩ "test" "nope" "nope" [] 0
    (by decide) (by decide)
  exact ⟨by decide, by decide, h.1, h.2.1, h.2.2.2.2.2.1⟩

/-- C5: for every ServiceReflect with well-formed (duplicate-free) descriptor
maps, `getMethod` returns the descriptor stored under the name at
construction and `none` for absent names, `hasMethod` is true exactly for
names in the method map, and `getEvent`/`hasEvent` behave the same over the
event map.  All four are pure reads of the maps captured at construction:
in this embedding they are functions of the reflect value and can change no
state. -/
theorem descriptor_lookups_are_pure_map_reads {ρ : Type} (r : ServiceReflect ρ)
    (hm : r._methods.WF) (he : r._events.WF) :
    (∀ n d, (n, d) ∈ r._methods → r.getMethod n = some d) ∧
    (∀ n, r._methods.has n = false → r.getMethod n = none) ∧
    (∀ n, r.hasMethod n = true ↔ n ∈ r._methods.keys) ∧
    (∀ n d, (n, d) ∈ r._events → r.getEvent n = some d) ∧
    (∀ n, r._events.has n = false → r.getEvent n = none) ∧
    (∀ n, r.hasEvent n = true ↔ n ∈ r._events.keys) :=
  ⟨fun _ _ hmem => JsMap.get_eq_some_of_mem hm hmem,
   fun _ h => JsMap.get_eq_none_of_has_false h,
   fun n => JsMap.has_iff_mem_keys r._methods n,
   fun _ _ hmem => JsMap.get_eq_some_of_mem he hmem,
   fun _ h => JsMap.get_eq_none_of_has_false h,
   fun n => JsMap.has_iff_mem_keys r._events n⟩

/-- Closed instance of C5's theorem on the reference test's remote reflect:
`hello` looks up to its descriptor, `nope` to `none`. -/
theorem descriptor_lookups_are_pure_map_reads_witness :
    (remoteTestReflect helloImpl ⟨0, []⟩).getMethod "hello" = some helloMethod ∧
    (remoteTestReflect helloImpl ⟨0, []⟩).getMethod "nope" = none ∧
    ((remoteTestReflect helloImpl ⟨0, []⟩).hasMethod "hello" = true ↔
      "hello" ∈ (remoteTestReflect helloImpl ⟨0, []⟩)._methods.keys) := by
  have h := descriptor_lookups_are_pure_map_reads
    (remoteTestReflect helloImpl ⟨0, []⟩) (by decide) (by decide)
  exact ⟨h.1 "hello" helloMethod (by decide), h.2.1 "nope" (by decide),
    h.2.2.1 "hello"⟩

/-- C7: a method known to the contract whose implementation throws is never
swallowed — the remote caller's promise rejects with a RemoteInvocationError
carrying exactly the remote error's message, while the local `apply`
propagates the thrown value unchanged. -/
theorem implementation_errors_reach_caller
    (methods : JsMap ServiceMethod) (impl : Impl) (sid : String)
    (st : PendingCalls) (m : String) (args : List Value) (msg : String)
    (hhas : methods.has m = true) (herr : impl m args = .error msg) :
    remoteCall methods impl sid st m args =
      .rejected (.remoteInvocationError msg) ∧
    localApply methods impl m args = .rejected (.thrown msg) := by
  have hl : localApply methods impl m args = .rejected (.thrown msg) := by
    simp [localApply, hhas, herr]
  refine ⟨?_, hl⟩
  simp [remoteCall, remoteSend, hhas, registerCall, handleCallRequest, hl,
    completeCall]

/-- Closed instance of C7's theorem: an implementation whose `hello` throws
`Error('boom')` makes the remote caller's promise reject with a
RemoteInvocationError whose message is `boom`. -/
theorem implementation_errors_reach_caller_witness :
    remoteCall TestService.methods boomImpl "test" ⟨0, []⟩ "hello" [.str "x"] =
      .rejected (.remoteInvocationError "boom") ∧
    localApply TestService.methods boomImpl "hello" [.str "x"] =
      .rejected (.thrown "boom") :=
  implementation_errors_reach_caller TestService.methods boomImpl "test"
    ⟨0, []⟩ "hello" [.str "x"] "boom" (by decide) (by decide)

/-- C10: for every ServiceReflect and every name, `hasMethod` holds exactly
when `getMethod` returns a non-null descriptor, and `hasEvent` exactly when
`getEvent` does. -/
theorem has_iff_lookup_isSome {ρ : Type} (r : ServiceReflect ρ) (n : String) :
    (r.hasMethod n = true ↔ (r.getMethod n).isSome = true) ∧
    (r.hasEvent n = true ↔ (r.getEvent n).isSome = true) := by
  constructor
  · rw [ServiceReflect.hasMethod, ServiceReflect.getMethod,
      JsMap.isSome_get_eq_has]
  · rw [ServiceReflect.hasEvent, ServiceReflect.getEvent,
      JsMap.isSome_get_eq_has]

/-- C2: for every available service handle wrapping a reflect that satisfies
a contract, and every method name the contract declares, the generated proxy
method and the handle's generic `call` produce the same result for the same
arguments (the implementation behind `apply` is a fixed, deterministic
function of the embedding). -/
theorem proxy_method_equals_generic_call {ρ : Type} (h : ServiceHandle ρ)
    (r : ServiceReflect ρ) (c : ServiceContract) (m : String)
    (args : List Value) (hr : h.reflect = some r)
    (hsat : c.satisfiedBy r = true) (hm : c.methods.has m = true) :
    h.available = true ∧
    ∃ proxy, h.as c = some proxy ∧ proxy m args = h.call m args := by
  refine ⟨by simp [ServiceHandle.available, hr], ?_⟩
  refine ⟨fun m1 a1 => if c.methods.has m1 then some (r.apply m1 a1) else none,
    ?_, ?_⟩
  · simp [ServiceHandle.as, hr, ServiceContract.createProxy, hsat]
  · simp [ServiceHandle.call, hr, ServiceReflect.call, hm]

/-- Closed instance of C2's theorem on the reference test's handle, contract
and method. -/
theorem proxy_method_equals_generic_call_witness :
    (⟨some (remoteTestReflect helloImpl ⟨0, []⟩)⟩ :
        ServiceHandle Outcome).available = true ∧
    ∃ proxy,
      ServiceHandle.as ⟨some (remoteTestReflect helloImpl ⟨0, []⟩)⟩ TestService
        = some proxy ∧
      proxy "hello" [.str "world"] =
        ServiceHandle.call ⟨some (remoteTestReflect helloImpl ⟨0, []⟩)⟩
          "hello" [.str "world"] :=
  proxy_method_equals_generic_call
    ⟨some (remoteTestReflect helloImpl ⟨0, []⟩)⟩
    (remoteTestReflect helloImpl ⟨0, []⟩) TestService "hello"
    [.str "world"] rfl (by decide) (by decide)

/-- C3: in the reference scenario — service id `test`, implementation
`hello(what)` returning `Hello <what>!` — a remote caller invoking
`hello('world')`, whether through the generic `call`/`apply` round trip or
through the `as(TestService)` proxy, gets a promise resolving to
`Hello world!`. -/
theorem hello_world_round_trip :
    remoteCall TestService.methods helloImpl "test" ⟨0, []⟩ "hello"
        [.str "world"] = .resolved (.str "Hello world!") ∧
    ServiceHandle.call ⟨some (remoteTestReflect helloImpl ⟨0, []⟩)⟩ "hello"
        [.str "world"] = some (.resolved (.str "Hello world!")) ∧
    ∃ proxy,
      ServiceHandle.as ⟨some (remoteTestReflect helloImpl ⟨0, []⟩)⟩ TestService
        = some proxy ∧
      proxy "hello" [.str "world"] = some (.resolved (.str "Hello world!")) :=
  ⟨by decide, by decide, ⟨_, rfl, by decide⟩⟩

/-- C6: a reflect constructed from a contract whose descriptors were declared
through `describeMethod`/`describeEvent` chains returns, from its `methods`
and `events` getters, exactly the declared descriptors in declaration
(insertion) order. -/
theorem getters_follow_insertion_order {ρ : Type} (id : String)
    (ap : String → List Value → ρ) (ds : List ServiceMethod)
    (es : List ServiceEvent) (c c' : ServiceContract)
    (h1 : ServiceContract.empty.describeMethods ds = .ok c)
    (h2 : c.describeEvents es = .ok c') :
    (ServiceReflect.mk id c'.methods c'.events ap).methods = ds ∧
    (ServiceReflect.mk id c'.methods c'.events ap).events = es := by
  obtain ⟨hv, hev⟩ := describeMethods_values ds ServiceContract.empty c h1
  obtain ⟨hv2, hm2⟩ := describeEvents_values es c c' h2
  constructor
  · show c'.methods.values = ds
    rw [hm2, hv]
    simp [ServiceContract.empty, JsMap.empty, JsMap.values]
  · show c'.events.values = es
    rw [hv2, hev]
    simp [ServiceContract.empty, JsMap.empty, JsMap.values]

/-- Closed instance of C6's theorem: declaring `hello` alone yields the
reference test's contract, and the resulting reflect lists exactly
`[helloMethod]`. -/
theorem getters_follow_insertion_order_witness :
    ServiceContract.empty.describeMethods [helloMethod] = .ok TestService ∧
    TestService.describeEvents [] = .ok TestService ∧
    (ServiceReflect.mk "test" TestService.methods TestService.events
      (fun _ _ => Outcome.rejected (.thrown "unused"))).methods
      = [helloMethod] := by
  have h := getters_follow_insertion_order "test"
    (fun _ _ => Outcome.rejected (.thrown "unused")) [helloMethod] []
    TestService TestService (by decide) (by decide)
  exact ⟨by decide, by decide, h.1⟩

/-- C8: two calls registered from the same caller get distinct correlation
ids (monotonic counter), and however the responses are ordered on arrival —
in particular out of send order — each call settles with the result carried
by its own correlation id, never with the other call's result. -/
theorem concurrent_calls_correlate_independently
    (st : PendingCalls) (v1 v2 : Except String Value)
    (resps : List CallResponse)
    (hnd : (List.map CallResponse.correlationId resps).Nodup)
    (h1 : (⟨(registerCall st).1, v1⟩ : CallResponse) ∈ resps)
    (h2 : (⟨(registerCall (registerCall st).2).1, v2⟩ : CallResponse) ∈ resps) :
    (registerCall st).1 ≠ (registerCall (registerCall st).2).1 ∧
    settle resps (registerCall st).1 = some v1 ∧
    settle resps (registerCall (registerCall st).2).1 = some v2 := by
  refine ⟨by simp [registerCall], ?_, ?_⟩
  · have hf := find_resp_of_mem_nodup hnd h1
    simp only [settle]
    simp [hf]
  · have hf := find_resp_of_mem_nodup hnd h2
    simp only [settle]
    simp [hf]

/-- Closed instance of C8's theorem: two calls with ids 0 and 1 whose
responses arrive in the opposite order still each receive their own
result. -/
theorem concurrent_calls_correlate_independently_witness :
    (List.map CallResponse.correlationId
      [⟨1, .ok (.str "second")⟩, ⟨0, .ok (.str "first")⟩]).Nodup ∧
    (0 : Nat) ≠ 1 ∧
    settle [⟨1, .ok (.str "second")⟩, ⟨0, .ok (.str "first")⟩] 0
      = some (.ok (.str "first")) ∧
    settle [⟨1, .ok (.str "second")⟩, ⟨0, .ok (.str "first")⟩] 1
      = some (.ok (.str "second")) := by
  have h := concurrent_calls_correlate_independently ⟨0, []⟩
    (.ok (.str "first")) (.ok (.str "second"))
    [⟨1, .ok (.str "second")⟩, ⟨0, .ok (.str "first")⟩]
    (by decide) (by decide) (by decide)
  exact ⟨by decide, h.1, h.2.1, h.2.2⟩

/-- C9: each read of the `methods` or `events` getter allocates a fresh
array (the reference it returns is outside the pre-existing heap); arbitrary
mutation of the returned array leaves every pre-existing array untouched, and
a later getter read still returns the descriptor values unchanged.  The
lookup functions (`getMethod`/`hasMethod`/`getEvent`/`hasEvent`) read the
descriptor maps, which are not in the array heap at all, so no array
mutation can affect them. -/
theorem getter_arrays_are_fresh {ρ : Type} (r : ServiceReflect ρ)
    (s : Store ServiceMethod) (t : Store ServiceEvent)
    (junkM : List ServiceMethod) (junkE : List ServiceEvent) :
    s.read (methodsGetterRead r s).1 = none ∧
    (∀ i, i < s.arrays.length →
      ((methodsGetterRead r s).2.write (methodsGetterRead r s).1 junkM).read i
        = s.read i) ∧
    ((methodsGetterRead r
        ((methodsGetterRead r s).2.write (methodsGetterRead r s).1 junkM)).2.read
      (methodsGetterRead r
        ((methodsGetterRead r s).2.write (methodsGetterRead r s).1 junkM)).1
      = some r.methods) ∧
    t.read (eventsGetterRead r t).1 = none ∧
    (∀ i, i < t.arrays.length →
      ((eventsGetterRead r t).2.write (eventsGetterRead r t).1 junkE).read i
        = t.read i) ∧
    ((eventsGetterRead r
        ((eventsGetterRead r t).2.write (eventsGetterRead r t).1 junkE)).2.read
      (eventsGetterRead r
        ((eventsGetterRead r t).2.write (eventsGetterRead r t).1 junkE)).1
      = some r.events) := by
  refine ⟨?_, ?_, ?_, ?_, ?_, ?_⟩
  · simp [Store.read, methodsGetterRead, Store.alloc]
  · intro i hi
    have hne : s.arrays.length ≠ i := by omega
    simp only [methodsGetterRead, Store.alloc, Store.write, Store.read]
    rw [List.getElem?_set_ne hne, List.getElem?_append_left hi]
  · simp only [methodsGetterRead, Store.alloc, Store.write, Store.read]
    exact List.getElem?_concat_length _ _
  · simp [Store.read, eventsGetterRead, Store.alloc]
  · intro i hi
    have hne : t.arrays.length ≠ i := by omega
    simp only [eventsGetterRead, Store.alloc, Store.write, Store.read]
    rw [List.getElem?_set_ne hne, List.getElem?_append_left hi]
  · simp only [eventsGetterRead, Store.alloc, Store.write, Store.read]
    exact List.getElem?_concat_length _ _

/-- Closed instance of C9's theorem on a one-array heap: the getter's
reference is fresh, and mutating it leaves the pre-existing array at index 0
unchanged. -/
theorem getter_arrays_are_fresh_witness :
    Store.read (⟨[[helloMethod]]⟩ : Store ServiceMethod)
      (methodsGetterRead (remoteTestReflect helloImpl ⟨0, []⟩)
        ⟨[[helloMethod]]⟩).1 = none ∧
    (0 : Nat) < (⟨[[helloMethod]]⟩ : Store ServiceMethod).arrays.length ∧
    ((methodsGetterRead (remoteTestReflect helloImpl ⟨0, []⟩)
        ⟨[[helloMethod]]⟩).2.write
      (methodsGetterRead (remoteTestReflect helloImpl ⟨0, []⟩)
        ⟨[[helloMethod]]⟩).1 []).read 0
      = Store.read (⟨[[helloMethod]]⟩ : Store ServiceMethod) 0 := by
  have h := getter_arrays_are_fresh (remoteTestReflect helloImpl ⟨0, []⟩)
    (⟨[[helloMethod]]⟩ : Store ServiceMethod) (⟨[]⟩ : Store ServiceEvent) [] []
  exact ⟨h.1, by decide, h.2.1 0 (by decide)⟩

end Ataraxia
